import Mathlib

/-!
Verification of the inventory-finance-automation core:
`src/reconciliation/wms_erp_reconciliation.py` and
`src/anomaly_detection/negative_stock_detector.py`.

Quantities are modelled as rationals (the sources hold signed integers or
decimals); SKUs, locations, transaction types and cause labels are strings,
as in the source. The external API clients are modelled as already-fetched
data: a fallible lookup is an `Option` (with `none` for a raised exception),
and the external `adjust_inventory` call is a caller-supplied success
predicate. Timestamps are an opaque `Nat` clock value.
-/

/-- An inventory row as returned by `get_inventory` / `get_all_inventory`:
sku, location and a signed quantity (the `last_updated` column is never read
by the logic verified here). -/
structure InvRecord where
  sku : String
  location : String
  quantity : ℚ
deriving DecidableEq, Repr

/-- Origin system tag attached by `scan_for_negative_stock`. -/
inductive Source where
  | WMS : Source
  | ERP : Source
deriving DecidableEq, Repr

/-- A row of the negative-stock result frame: the original columns plus the
`source` tag column. -/
structure NegItem where
  sku : String
  location : String
  quantity : ℚ
  source : Source
deriving DecidableEq, Repr

/-- A row of the merged frame built by `reconcile` (lines 81-102 of
`wms_erp_reconciliation.py`): join key, both quantities after `fillna(0)`,
and the derived `variance`, `variance_pct`, `is_discrepancy` columns. -/
structure MergedRecord where
  sku : String
  location : String
  quantity_wms : ℚ
  quantity_erp : ℚ
  variance : ℚ
  variance_pct : ℚ
  is_discrepancy : Bool
deriving DecidableEq, Repr

/-- Key predicate on a source inventory row: row matches join key (s, l). -/
def keyMatches (s l : String) (r : InvRecord) : Bool :=
  r.sku == s && r.location == l

/-- Key predicate on a merged row. -/
def mkeyMatches (s l : String) (m : MergedRecord) : Bool :=
  m.sku == s && m.location == l

/-- Key predicate on a negative-stock row. -/
def nkeyMatches (s l : String) (i : NegItem) : Bool :=
  i.sku == s && i.location == l

/-- The normalized-snapshot precondition of the data model (at most one row
per (sku, location) inside one snapshot). -/
def nodupKeys (recs : List InvRecord) : Prop :=
  (recs.map fun r => (r.sku, r.location)).Nodup

/-- Quantity of the row of `recs` whose key is (s, l), if any
(`pd.merge` row alignment for unique-keyed frames). -/
def lookupQty (recs : List InvRecord) (s l : String) : Option ℚ :=
  (recs.find? (keyMatches s l)).map fun r => r.quantity

/-- Whether some row of `recs` has key (s, l). -/
def hasKey (recs : List InvRecord) (s l : String) : Bool :=
  recs.any (keyMatches s l)

/-- Builds one merged row from the two (possibly absent) sides, exactly as
lines 90-102 of `reconcile`: `fillna(0)` on each quantity, then
`variance = quantity_wms - quantity_erp`,
`variance_pct = variance / quantity_erp.replace(0, 1) * 100`, and
`is_discrepancy = abs(variance_pct) > tolerance * 100`. -/
def mkMerged (tol : ℚ) (s l : String) (qw? qe? : Option ℚ) : MergedRecord :=
  let qw := qw?.getD 0
  let qe := qe?.getD 0
  let v := qw - qe
  let vpct := v / (if qe = 0 then 1 else qe) * 100
  ⟨s, l, qw, qe, v, vpct, decide (tol * 100 < |vpct|)⟩

/-- The full outer join on (sku, location) performed by `reconcile`
(lines 81-97): one row per WMS key (with the ERP side looked up, absent means
NaN filled to 0), plus one row per ERP-only key (WMS side filled to 0).
Inputs are normalized snapshots (unique key per row, per the data model). -/
def mergeInventories (tol : ℚ) (wms erp : List InvRecord) : List MergedRecord :=
  (wms.map fun w => mkMerged tol w.sku w.location (some w.quantity) (lookupQty erp w.sku w.location))
    ++ ((erp.filter fun e => !hasKey wms e.sku e.location).map
        fun e => mkMerged tol e.sku e.location none (some e.quantity))

/-- The discrepancy frame returned by `reconcile` (line 105): merged rows
filtered to `is_discrepancy`. -/
def reconcile (tol : ℚ) (wms erp : List InvRecord) : List MergedRecord :=
  (mergeInventories tol wms erp).filter fun m => m.is_discrepancy

/-- The seven category frames produced by `categorize_discrepancies`
(lines 123-140). -/
structure Categories where
  critical : List MergedRecord
  high : List MergedRecord
  medium : List MergedRecord
  low : List MergedRecord
  negative_stock : List MergedRecord
  missing_in_wms : List MergedRecord
  missing_in_erp : List MergedRecord
deriving Repr

/-- `categorize_discrepancies` (lines 111-145): each category is an
independent boolean filter of the input frame. -/
def categorize_discrepancies (ds : List MergedRecord) : Categories where
  critical := ds.filter fun r => decide (100 < |r.variance|)
  high := ds.filter fun r => decide (50 < |r.variance|) && decide (|r.variance| ≤ 100)
  medium := ds.filter fun r => decide (10 < |r.variance|) && decide (|r.variance| ≤ 50)
  low := ds.filter fun r => decide (|r.variance| ≤ 10)
  negative_stock := ds.filter fun r => decide (r.quantity_wms < 0) || decide (r.quantity_erp < 0)
  missing_in_wms := ds.filter fun r => decide (r.quantity_wms = 0)
  missing_in_erp := ds.filter fun r => decide (r.quantity_erp = 0)

/-- An applied adjustment as assembled at lines 208-214 of
`auto_adjust_discrepancies`: old quantity is the ERP side, new quantity the
WMS side, `adjusted_at` the clock reading. -/
structure Adjustment where
  sku : String
  location : String
  old_quantity : ℚ
  new_quantity : ℚ
  adjusted_at : Nat
deriving DecidableEq, Repr

/-- The adjustment dict built for row `r` at time `now`. -/
def mkAdjustment (now : Nat) (r : MergedRecord) : Adjustment :=
  ⟨r.sku, r.location, r.quantity_erp, r.quantity_wms, now⟩

/-- Rows for which `auto_adjust_discrepancies` invokes the external
`erp_client.adjust_inventory` call: the filter at line 203,
`abs(variance) <= threshold`. Every row of this list is attempted,
whatever the outcome of each call. -/
def attemptedAdjustments (ds : List MergedRecord) (threshold : ℚ) : List MergedRecord :=
  ds.filter fun r => decide (|r.variance| ≤ threshold)

/-- The for-loop of lines 206-227: each row is attempted independently;
`ok r = true` models a successful `adjust_inventory` call (the adjustment is
appended), `ok r = false` a raised exception (logged and skipped). -/
def adjustLoop (ok : MergedRecord → Bool) (now : Nat) : List MergedRecord → List Adjustment
  | [] => []
  | r :: rest =>
    if ok r then mkAdjustment now r :: adjustLoop ok now rest
    else adjustLoop ok now rest

/-- `auto_adjust_discrepancies` (lines 187-230): filter to rows within the
threshold, then run the best-effort adjustment loop. -/
def auto_adjust_discrepancies (ds : List MergedRecord) (threshold : ℚ)
    (ok : MergedRecord → Bool) (now : Nat) : List Adjustment :=
  adjustLoop ok now (attemptedAdjustments ds threshold)

/-- `scan_for_negative_stock` (lines 32-63 of `negative_stock_detector.py`):
filter each source's full inventory to `quantity < 0`, tag with the origin
source, and concatenate. -/
def scan_for_negative_stock (wms erp : List InvRecord) : List NegItem :=
  ((wms.filter fun r => decide (r.quantity < 0)).map
      fun r => NegItem.mk r.sku r.location r.quantity Source.WMS)
    ++ ((erp.filter fun r => decide (r.quantity < 0)).map
      fun r => NegItem.mk r.sku r.location r.quantity Source.ERP)

/-- A transaction-history row: `type` field (a string, compared against
"shipment" / "receipt" / "adjustment") and a signed quantity. -/
structure Transaction where
  ttype : String
  quantity : ℚ
deriving DecidableEq, Repr

/-- The causes appended by the three transaction-history rules of
`identify_causes` (lines 127-143), in program order: over-shipment
(`if shipments:` then `if total_shipped > 0:`), missing receipts
(`if not receipts:`), negative adjustments. -/
def historyCauses (history : List Transaction) : List String :=
  let shipments := history.filter fun t => t.ttype == "shipment"
  let c1 : List String :=
    if shipments.isEmpty then []
    else if 0 < (shipments.map fun t => t.quantity).sum then ["Over-shipment detected"] else []
  let receipts := history.filter fun t => t.ttype == "receipt"
  let c2 : List String := if receipts.isEmpty then ["No receipts in past 7 days"] else []
  let adjustments := history.filter fun t => t.ttype == "adjustment"
  let negAdjustments := adjustments.filter fun t => decide (t.quantity < 0)
  let c3 : List String := if negAdjustments.isEmpty then [] else ["Recent negative adjustments"]
  c1 ++ c2 ++ c3

/-- `identify_causes` (lines 107-157). `history?` is the result of the
`get_transaction_history` call and `pending?` of `get_pending_receipts`;
`none` models the call raising. The history call comes first, then the three
history rules, then the pending-receipts call, all inside one `try`; the
`except` handler appends "Unable to determine cause" to whatever `causes`
already holds; the final line substitutes `["Unknown cause"]` for an empty
list. -/
def identify_causes (history? : Option (List Transaction))
    (pending? : Option (List Unit)) : List String :=
  let causes : List String :=
    match history? with
    | none => ["Unable to determine cause"]
    | some history =>
      let hc := historyCauses history
      match pending? with
      | none => hc ++ ["Unable to determine cause"]
      | some pending =>
        hc ++ (if pending.isEmpty then [] else ["Pending receipts not yet processed"])
  if causes.isEmpty then ["Unknown cause"] else causes

/-- One entry of `analysis['potential_causes']`: item key, quantity, and the
ordered cause list from `identify_causes`. -/
structure Finding where
  sku : String
  location : String
  quantity : ℚ
  causes : List String
deriving DecidableEq, Repr

/-- A remediation action dict as built by `create_remediation_plan`. -/
structure RemediationAction where
  sku : String
  location : String
  action : String
  priority : String
  description : String
deriving DecidableEq, Repr

/-- The per-finding body of the loop in `create_remediation_plan`
(lines 173-214): four independent membership tests on the cause list, each
appending one action. -/
def actionsForFinding (f : Finding) : List RemediationAction :=
  (if "Over-shipment detected" ∈ f.causes then
    [RemediationAction.mk f.sku f.location "investigate_shipments" "high"
      "Review recent shipments for errors"] else [])
  ++ (if "No receipts in past 7 days" ∈ f.causes then
    [RemediationAction.mk f.sku f.location "check_purchase_orders" "high"
      "Verify pending purchase orders"] else [])
  ++ (if "Pending receipts not yet processed" ∈ f.causes then
    [RemediationAction.mk f.sku f.location "process_pending_receipts" "critical"
      "Expedite pending receipt processing"] else [])
  ++ (if "Unknown cause" ∈ f.causes then
    [RemediationAction.mk f.sku f.location "manual_investigation" "high"
      "Manual review required"] else [])

/-- `create_remediation_plan` (lines 159-216): the loop appends the actions
of each finding in order. -/
def create_remediation_plan (findings : List Finding) : List RemediationAction :=
  findings.flatMap actionsForFinding

/-- Spec-side rule set of section 4.4, stated as the spec words it: a label
is appended iff its rule condition holds, in the fixed order over-shipment
(sum of shipment quantities positive), no receipts (receipt set empty),
negative adjustments (some adjustment negative), pending receipts
(nonempty). Compared against `identify_causes` for the refinement claim. -/
def specRuleCauses (history : List Transaction) (pending : List Unit) : List String :=
  (if 0 < ((history.filter fun t => t.ttype == "shipment").map fun t => t.quantity).sum then
    ["Over-shipment detected"] else [])
  ++ (if history.filter (fun t => t.ttype == "receipt") = [] then
    ["No receipts in past 7 days"] else [])
  ++ (if (history.filter fun t => t.ttype == "adjustment").any (fun t => decide (t.quantity < 0)) then
    ["Recent negative adjustments"] else [])
  ++ (if pending = [] then [] else ["Pending receipts not yet processed"])

/-- Spec-side remediation lookup table of section 4.5:
(cause label, action, priority, description). Compared against
`actionsForFinding` for the refinement claim. -/
def specRemediationTable : List (String × String × String × String) :=
  [("Over-shipment detected", "investigate_shipments", "high",
      "Review recent shipments for errors"),
   ("No receipts in past 7 days", "check_purchase_orders", "high",
      "Verify pending purchase orders"),
   ("Pending receipts not yet processed", "process_pending_receipts", "critical",
      "Expedite pending receipt processing"),
   ("Unknown cause", "manual_investigation", "high",
      "Manual review required")]

/-! Helper lemmas about `identify_causes` and its rule chunks. -/

/-- A list's `any` is the negated emptiness of its filter. -/
lemma any_eq_not_isEmpty_filter {α : Type} (p : α → Bool) (l : List α) :
    l.any p = !(l.filter p).isEmpty := by
  induction l with
  | nil => rfl
  | cons a t ih => cases hpa : p a <;> simp [List.any_cons, List.filter_cons, hpa, ih]

/-- Appending a chunk that is either `[a]` or `[]` preserves sublist structure. -/
lemma chunk_append_sublist {c : List String} {a : String}
    (hc : c = [a] ∨ c = []) {l L : List String} (h : List.Sublist l L) :
    List.Sublist (c ++ l) (a :: L) := by
  rcases hc with rfl | rfl
  · exact List.Sublist.cons₂ a h
  · exact List.Sublist.cons a h

/-- The over-shipment chunk of `historyCauses` is a singleton or empty. -/
lemma overShipment_chunk_cases (sh : List Transaction) :
    (if sh.isEmpty then ([] : List String)
     else if 0 < (sh.map fun t => t.quantity).sum then ["Over-shipment detected"] else [])
      = ["Over-shipment detected"]
    ∨ (if sh.isEmpty then ([] : List String)
     else if 0 < (sh.map fun t => t.quantity).sum then ["Over-shipment detected"] else [])
      = [] := by
  split_ifs <;> simp

/-- An `if`-guarded singleton is a singleton or empty. -/
lemma ite_singleton_cases (c : Prop) [Decidable c] (a : String) :
    (if c then [a] else ([] : List String)) = [a]
      ∨ (if c then [a] else ([] : List String)) = [] := by
  split_ifs <;> simp

/-- An `if`-guarded (else-side) singleton is a singleton or empty. -/
lemma ite_singleton_cases' (c : Prop) [Decidable c] (a : String) :
    (if c then ([] : List String) else [a]) = [a]
      ∨ (if c then ([] : List String) else [a]) = [] := by
  split_ifs <;> simp

/-- The three history-rule causes form a sublist of the three labels in order. -/
lemma historyCauses_sublist (h : List Transaction) :
    List.Sublist (historyCauses h)
      ["Over-shipment detected", "No receipts in past 7 days",
       "Recent negative adjustments"] := by
  unfold historyCauses
  rw [List.append_assoc]
  refine chunk_append_sublist (overShipment_chunk_cases _)
    (chunk_append_sublist (ite_singleton_cases _ _) ?_)
  rcases ite_singleton_cases' ((List.filter (fun t => decide (t.quantity < 0))
      (List.filter (fun t => t.ttype == "adjustment") h)).isEmpty)
      "Recent negative adjustments" with he | he
  · rw [he]
  · rw [he]; exact List.nil_sublist _

/-- `identify_causes` when the history lookup succeeds and the pending lookup
raises: the history-rule causes are kept, followed by the sentinel. -/
lemma identify_causes_some_none (h : List Transaction) :
    identify_causes (some h) none = historyCauses h ++ ["Unable to determine cause"] := by
  unfold identify_causes
  have hne : (historyCauses h ++ ["Unable to determine cause"]).isEmpty = false := by
    cases historyCauses h <;> rfl
  simp [hne]

/-- Case analysis on every outcome of `identify_causes`: it is the fallback
singleton, or a sublist of the five labels in their fixed order. -/
lemma identify_causes_cases (history? : Option (List Transaction))
    (pending? : Option (List Unit)) :
    identify_causes history? pending? = ["Unknown cause"]
      ∨ List.Sublist (identify_causes history? pending?)
          ["Over-shipment detected", "No receipts in past 7 days",
           "Recent negative adjustments", "Pending receipts not yet processed",
           "Unable to determine cause"] := by
  cases history? with
  | none =>
    right
    show List.Sublist ["Unable to determine cause"] _
    exact (((((List.Sublist.refl _).cons _).cons _).cons _).cons _)
  | some h =>
    cases pending? with
    | none =>
      right
      rw [identify_causes_some_none]
      exact (historyCauses_sublist h).append ((List.Sublist.refl _).cons _)
    | some p =>
      unfold identify_causes
      cases hni : (historyCauses h ++
          if p.isEmpty then [] else ["Pending receipts not yet processed"]).isEmpty with
      | true => left; exact if_pos hni
      | false =>
        right
        simp only [hni, Bool.false_eq_true, if_false]
        refine List.Sublist.trans ?_ (List.sublist_append_left
          ["Over-shipment detected", "No receipts in past 7 days",
           "Recent negative adjustments", "Pending receipts not yet processed"]
          ["Unable to determine cause"])
        refine (historyCauses_sublist h).append ?_
        rcases ite_singleton_cases' (p.isEmpty = true) "Pending receipts not yet processed"
          with he | he
        · rw [he]
        · rw [he]; exact List.nil_sublist _

/-- The nested over-shipment guard of the code (`if shipments:` then
`if total_shipped > 0:`) collapses to the spec's single condition, because an
empty shipment list has sum 0. -/
lemma overShipment_guard_eq_spec (sh : List Transaction) :
    (if sh.isEmpty then ([] : List String)
     else if 0 < (sh.map fun t => t.quantity).sum then ["Over-shipment detected"] else [])
      = if 0 < (sh.map fun t => t.quantity).sum then ["Over-shipment detected"] else [] := by
  cases hse : sh.isEmpty
  · simp [hse]
  · have : sh = [] := List.isEmpty_iff.mp hse
    subst this
    simp

/-- The emptiness test on the filtered negative adjustments equals the
spec's existential condition. -/
lemma negAdjustment_guard_eq_spec (adj : List Transaction) (a : String) :
    (if (adj.filter fun t => decide (t.quantity < 0)).isEmpty then ([] : List String) else [a])
      = if adj.any (fun t => decide (t.quantity < 0)) then [a] else [] := by
  rw [any_eq_not_isEmpty_filter]
  cases (adj.filter fun t => decide (t.quantity < 0)).isEmpty <;> simp

/-- The causes accumulated by a fully successful run of the `try` block equal
the spec-side rule list. -/
lemma historyCauses_append_pending_eq_spec (h : List Transaction) (p : List Unit) :
    historyCauses h ++ (if p.isEmpty then [] else ["Pending receipts not yet processed"])
      = specRuleCauses h p := by
  show ((if (h.filter fun t => t.ttype == "shipment").isEmpty then ([] : List String)
      else if 0 < ((h.filter fun t => t.ttype == "shipment").map fun t => t.quantity).sum
        then ["Over-shipment detected"] else [])
    ++ (if (h.filter fun t => t.ttype == "receipt").isEmpty
        then ["No receipts in past 7 days"] else [])
    ++ (if ((h.filter fun t => t.ttype == "adjustment").filter
          fun t => decide (t.quantity < 0)).isEmpty
        then [] else ["Recent negative adjustments"]))
    ++ (if p.isEmpty then [] else ["Pending receipts not yet processed"]) = _
  rw [overShipment_guard_eq_spec, negAdjustment_guard_eq_spec]
  simp [specRuleCauses, List.isEmpty_iff, List.append_assoc]

/-- C1 (counterexample): for the item whose transaction history succeeds with
one shipment of +5 (firing the over-shipment and no-receipts rules) and whose
pending-receipt query raises, the cause list keeps the partial causes and
appends the sentinel, so it is not the single-element sentinel list the claim
demands. -/
theorem identify_causes_pending_failure_counterexample :
    identify_causes (some [Transaction.mk "shipment" 5]) none
        = ["Over-shipment detected", "No receipts in past 7 days",
           "Unable to determine cause"]
      ∧ identify_causes (some [Transaction.mk "shipment" 5]) none
        ≠ ["Unable to determine cause"] := by
  have hhc : historyCauses [Transaction.mk "shipment" 5]
      = ["Over-shipment detected", "No receipts in past 7 days"] := by
    simp [historyCauses]
  rw [identify_causes_some_none, hhc]
  exact ⟨rfl, by simp⟩

/-- C1 (amended): if the transaction-history query raises, the cause list is
exactly the sentinel singleton; if the history query succeeds and the
pending-receipt query raises, the list is the causes recorded by the history
rules followed by the sentinel (partial causes are retained). -/
theorem identify_causes_lookup_failure (p? : Option (List Unit)) (h : List Transaction) :
    identify_causes none p? = ["Unable to determine cause"]
      ∧ identify_causes (some h) none
          = historyCauses h ++ ["Unable to determine cause"] :=
  ⟨rfl, identify_causes_some_none h⟩

/-- C5: when both lookups succeed, `identify_causes` returns exactly the
labels of the spec's four rules, in the fixed order, with each rule firing
iff its spec condition holds, and the fallback singleton when no rule
fires. -/
theorem identify_causes_success_follows_rules (h : List Transaction) (p : List Unit) :
    identify_causes (some h) (some p)
      = if specRuleCauses h p = [] then ["Unknown cause"] else specRuleCauses h p := by
  show (if (historyCauses h
        ++ if p.isEmpty then [] else ["Pending receipts not yet processed"]).isEmpty
      then ["Unknown cause"]
      else historyCauses h
        ++ if p.isEmpty then [] else ["Pending receipts not yet processed"]) = _
  rw [historyCauses_append_pending_eq_spec h p]
  simp [List.isEmpty_iff]

/-- C10: whatever the outcome of the two lookups, the cause list has no
duplicate label (every label occurs at most once) and has length at most
five. -/
theorem identify_causes_no_duplicate_causes (history? : Option (List Transaction))
    (pending? : Option (List Unit)) :
    (∀ lbl : String, (identify_causes history? pending?).count lbl ≤ 1)
      ∧ (identify_causes history? pending?).length ≤ 5 := by
  have hnd : (["Over-shipment detected", "No receipts in past 7 days",
      "Recent negative adjustments", "Pending receipts not yet processed",
      "Unable to determine cause"] : List String).Nodup := by decide
  rcases identify_causes_cases history? pending? with he | hs
  · rw [he]
    exact ⟨fun lbl => List.count_le_length lbl ["Unknown cause"], by simp⟩
  · constructor
    · intro lbl
      exact le_trans (hs.count_le lbl) (List.nodup_iff_count_le_one.mp hnd lbl)
    · exact le_trans hs.length_le (by simp)

/-! Field equations of `mkMerged` (the merged-row constructor). -/

@[simp] lemma mkMerged_sku (tol : ℚ) (s l : String) (qw? qe? : Option ℚ) :
    (mkMerged tol s l qw? qe?).sku = s := rfl

@[simp] lemma mkMerged_location (tol : ℚ) (s l : String) (qw? qe? : Option ℚ) :
    (mkMerged tol s l qw? qe?).location = l := rfl

@[simp] lemma mkMerged_quantity_wms (tol : ℚ) (s l : String) (qw? qe? : Option ℚ) :
    (mkMerged tol s l qw? qe?).quantity_wms = qw?.getD 0 := rfl

@[simp] lemma mkMerged_quantity_erp (tol : ℚ) (s l : String) (qw? qe? : Option ℚ) :
    (mkMerged tol s l qw? qe?).quantity_erp = qe?.getD 0 := rfl

@[simp] lemma mkMerged_variance (tol : ℚ) (s l : String) (qw? qe? : Option ℚ) :
    (mkMerged tol s l qw? qe?).variance = qw?.getD 0 - qe?.getD 0 := rfl

@[simp] lemma mkMerged_variance_pct_def (tol : ℚ) (s l : String) (qw? qe? : Option ℚ) :
    (mkMerged tol s l qw? qe?).variance_pct
      = (qw?.getD 0 - qe?.getD 0)
        / (if qe?.getD 0 = 0 then 1 else qe?.getD 0) * 100 := rfl

/-- Every row of the merged frame is a `mkMerged` row. -/
lemma mem_mergeInventories_cases {tol : ℚ} {wms erp : List InvRecord} {m : MergedRecord}
    (hm : m ∈ mergeInventories tol wms erp) :
    ∃ s l qw? qe?, m = mkMerged tol s l qw? qe? := by
  rcases List.mem_append.mp hm with h | h
  · rcases List.mem_map.mp h with ⟨w, hw, rfl⟩
    exact ⟨w.sku, w.location, some w.quantity, lookupQty erp w.sku w.location, rfl⟩
  · rcases List.mem_map.mp h with ⟨e, he, rfl⟩
    exact ⟨e.sku, e.location, none, some e.quantity, rfl⟩

/-- C2: on every discrepancy frame the four severity buckets are
characterized by the stated variance ranges, are exhaustive, are pairwise
disjoint, and a record whose absolute variance is exactly 10 lands in the
low bucket and not in the medium bucket. -/
theorem severity_buckets_partition (ds : List MergedRecord) (r : MergedRecord)
    (hr : r ∈ ds) :
    (r ∈ (categorize_discrepancies ds).critical ↔ 100 < |r.variance|)
    ∧ (r ∈ (categorize_discrepancies ds).high ↔ 50 < |r.variance| ∧ |r.variance| ≤ 100)
    ∧ (r ∈ (categorize_discrepancies ds).medium ↔ 10 < |r.variance| ∧ |r.variance| ≤ 50)
    ∧ (r ∈ (categorize_discrepancies ds).low ↔ |r.variance| ≤ 10)
    ∧ (r ∈ (categorize_discrepancies ds).critical ∨ r ∈ (categorize_discrepancies ds).high
        ∨ r ∈ (categorize_discrepancies ds).medium ∨ r ∈ (categorize_discrepancies ds).low)
    ∧ ¬(r ∈ (categorize_discrepancies ds).critical ∧ r ∈ (categorize_discrepancies ds).high)
    ∧ ¬(r ∈ (categorize_discrepancies ds).critical ∧ r ∈ (categorize_discrepancies ds).medium)
    ∧ ¬(r ∈ (categorize_discrepancies ds).critical ∧ r ∈ (categorize_discrepancies ds).low)
    ∧ ¬(r ∈ (categorize_discrepancies ds).high ∧ r ∈ (categorize_discrepancies ds).medium)
    ∧ ¬(r ∈ (categorize_discrepancies ds).high ∧ r ∈ (categorize_discrepancies ds).low)
    ∧ ¬(r ∈ (categorize_discrepancies ds).medium ∧ r ∈ (categorize_discrepancies ds).low)
    ∧ (|r.variance| = 10
        → r ∈ (categorize_discrepancies ds).low
          ∧ r ∉ (categorize_discrepancies ds).medium) := by
  have hc : r ∈ (categorize_discrepancies ds).critical ↔ 100 < |r.variance| := by
    simp [categorize_discrepancies, List.mem_filter, hr]
  have hh : r ∈ (categorize_discrepancies ds).high
      ↔ 50 < |r.variance| ∧ |r.variance| ≤ 100 := by
    simp [categorize_discrepancies, List.mem_filter, hr]
  have hm : r ∈ (categorize_discrepancies ds).medium
      ↔ 10 < |r.variance| ∧ |r.variance| ≤ 50 := by
    simp [categorize_discrepancies, List.mem_filter, hr]
  have hl : r ∈ (categorize_discrepancies ds).low ↔ |r.variance| ≤ 10 := by
    simp [categorize_discrepancies, List.mem_filter, hr]
  refine ⟨hc, hh, hm, hl, ?_, ?_, ?_, ?_, ?_, ?_, ?_, ?_⟩
  · rcases le_or_lt |r.variance| 10 with h1 | h1
    · exact Or.inr (Or.inr (Or.inr (hl.mpr h1)))
    · rcases le_or_lt |r.variance| 50 with h2 | h2
      · exact Or.inr (Or.inr (Or.inl (hm.mpr ⟨h1, h2⟩)))
      · rcases le_or_lt |r.variance| 100 with h3 | h3
        · exact Or.inr (Or.inl (hh.mpr ⟨h2, h3⟩))
        · exact Or.inl (hc.mpr h3)
  · rintro ⟨a, b⟩
    have ha := hc.mp a
    have hb := hh.mp b
    linarith [hb.2]
  · rintro ⟨a, b⟩
    have ha := hc.mp a
    have hb := hm.mp b
    linarith [hb.2]
  · rintro ⟨a, b⟩
    have ha := hc.mp a
    have hb := hl.mp b
    linarith
  · rintro ⟨a, b⟩
    have ha := hh.mp a
    have hb := hm.mp b
    linarith [ha.1, hb.2]
  · rintro ⟨a, b⟩
    have ha := hh.mp a
    have hb := hl.mp b
    linarith [ha.1]
  · rintro ⟨a, b⟩
    have ha := hm.mp a
    have hb := hl.mp b
    linarith [ha.1]
  · intro h10
    refine ⟨hl.mpr (le_of_eq h10), fun hmem => ?_⟩
    have := (hm.mp hmem).1
    linarith

/-- C2 witness: the spec's own boundary example (WMS 100, ERP 90, variance
10) falls in the low bucket and not in the medium bucket. -/
theorem severity_buckets_partition_witness :
    mkMerged (1/100) "B2" "W2" (some 100) (some 90)
        ∈ (categorize_discrepancies [mkMerged (1/100) "B2" "W2" (some 100) (some 90)]).low
      ∧ mkMerged (1/100) "B2" "W2" (some 100) (some 90)
        ∉ (categorize_discrepancies [mkMerged (1/100) "B2" "W2" (some 100) (some 90)]).medium :=
  (severity_buckets_partition [mkMerged (1/100) "B2" "W2" (some 100) (some 90)]
      (mkMerged (1/100) "B2" "W2" (some 100) (some 90))
      (List.mem_singleton.mpr rfl)).2.2.2.2.2.2.2.2.2.2.2 (by norm_num)

/-- C4: every merged row's `variance_pct` equals `variance` divided by
`quantity_erp` (with divisor 1 substituted when `quantity_erp` is exactly 0)
times 100, and in particular a row with WMS quantity 5 and ERP quantity 0
has `variance_pct` 500. -/
theorem variance_pct_zero_divisor_convention (tol : ℚ) (wms erp : List InvRecord)
    (m : MergedRecord) (hmem : m ∈ mergeInventories tol wms erp) :
    m.variance_pct
        = m.variance / (if m.quantity_erp = 0 then 1 else m.quantity_erp) * 100
      ∧ (m.quantity_wms = 5 → m.quantity_erp = 0 → m.variance_pct = 500) := by
  obtain ⟨s, l, qw?, qe?, rfl⟩ := mem_mergeInventories_cases hmem
  constructor
  · simp
  · intro h5 h0
    simp only [mkMerged_quantity_wms] at h5
    simp only [mkMerged_quantity_erp] at h0
    rw [mkMerged_variance_pct_def, h5, h0]
    norm_num

/-- C4 witness: a WMS-only row with quantity 5 (ERP side defaulted to 0)
evaluates to `variance_pct` 500. -/
theorem variance_pct_zero_divisor_convention_witness :
    (mkMerged (1/100) "A" "L" (some 5) (lookupQty [] "A" "L")).variance_pct = 500 :=
  (variance_pct_zero_divisor_convention (1/100) [InvRecord.mk "A" "L" 5] []
      (mkMerged (1/100) "A" "L" (some 5) (lookupQty [] "A" "L"))
      (List.mem_append.mpr (Or.inl (List.mem_map.mpr
        ⟨InvRecord.mk "A" "L" 5, List.mem_singleton.mpr rfl, rfl⟩)))).2 rfl rfl

/-- C6: the remediation planner is exactly the spec's lookup table applied
per finding (one action per matching table label), and appending either of
the two non-table labels ("Recent negative adjustments", "Unable to
determine cause") to a finding's causes changes nothing. -/
theorem remediation_plan_follows_table :
    (∀ findings : List Finding,
        create_remediation_plan findings
          = findings.flatMap fun f =>
              (specRemediationTable.filter fun e => decide (e.1 ∈ f.causes)).map
                fun e => RemediationAction.mk f.sku f.location e.2.1 e.2.2.1 e.2.2.2)
    ∧ (∀ (f : Finding) (c : String),
        c = "Recent negative adjustments" ∨ c = "Unable to determine cause"
        → actionsForFinding (Finding.mk f.sku f.location f.quantity (f.causes ++ [c]))
          = actionsForFinding f) := by
  have hbody : ∀ f : Finding, actionsForFinding f
      = (specRemediationTable.filter fun e => decide (e.1 ∈ f.causes)).map
          fun e => RemediationAction.mk f.sku f.location e.2.1 e.2.2.1 e.2.2.2 := by
    intro f
    by_cases h1 : "Over-shipment detected" ∈ f.causes <;>
      by_cases h2 : "No receipts in past 7 days" ∈ f.causes <;>
        by_cases h3 : "Pending receipts not yet processed" ∈ f.causes <;>
          by_cases h4 : "Unknown cause" ∈ f.causes <;>
            simp [actionsForFinding, specRemediationTable, h1, h2, h3, h4]
  constructor
  · intro findings
    unfold create_remediation_plan
    exact List.flatMap_congr fun f _ => hbody f
  · rintro f c (rfl | rfl) <;>
      simp [actionsForFinding, List.mem_append]

/-- C6 witness: appending "Unable to determine cause" to a finding whose
only cause is "Unknown cause" leaves the planned actions unchanged. -/
theorem remediation_plan_follows_table_witness :
    actionsForFinding
        (Finding.mk "A1" "W1" (-5) (["Unknown cause"] ++ ["Unable to determine cause"]))
      = actionsForFinding (Finding.mk "A1" "W1" (-5) ["Unknown cause"]) :=
  remediation_plan_follows_table.2 (Finding.mk "A1" "W1" (-5) ["Unknown cause"])
    "Unable to determine cause" (Or.inr rfl)

/-- Every adjustment produced by the loop comes from a row of the iterated
list on which the external call succeeded. -/
lemma mem_adjustLoop {ok : MergedRecord → Bool} {now : Nat}
    {l : List MergedRecord} {a : Adjustment} :
    a ∈ adjustLoop ok now l → ∃ r ∈ l, ok r = true ∧ a = mkAdjustment now r := by
  induction l with
  | nil =>
    intro ha
    simp [adjustLoop] at ha
  | cons r rest ih =>
    intro ha
    by_cases hok : ok r
    · rw [adjustLoop, if_pos hok] at ha
      rcases List.mem_cons.mp ha with ha | ha
      · exact ⟨r, List.mem_cons_self r rest, hok, ha⟩
      · obtain ⟨q, hq, hoq, rfl⟩ := ih ha
        exact ⟨q, List.mem_cons_of_mem r hq, hoq, rfl⟩
    · rw [adjustLoop, if_neg hok] at ha
      obtain ⟨q, hq, hoq, rfl⟩ := ih ha
      exact ⟨q, List.mem_cons_of_mem r hq, hoq, rfl⟩

/-- The skip-on-failure loop is the filter-then-map of its successes. -/
lemma adjustLoop_eq_filter_map (ok : MergedRecord → Bool) (now : Nat)
    (l : List MergedRecord) :
    adjustLoop ok now l = (l.filter ok).map (mkAdjustment now) := by
  induction l with
  | nil => rfl
  | cons r rest ih =>
    by_cases hok : ok r <;>
      simp [adjustLoop, List.filter_cons, hok, ih]

/-- C7: the external adjustment call is invoked exactly for the rows with
absolute variance within the caller-supplied threshold; every produced
adjustment comes from such a row; with threshold 10 a row of variance 11 is
excluded and a row of variance 10 is included. -/
theorem auto_adjust_respects_threshold (ds : List MergedRecord) (threshold : ℚ) :
    (∀ r : MergedRecord,
        r ∈ attemptedAdjustments ds threshold ↔ r ∈ ds ∧ |r.variance| ≤ threshold)
    ∧ (∀ (ok : MergedRecord → Bool) (now : Nat),
        ∀ a ∈ auto_adjust_discrepancies ds threshold ok now,
          ∃ r ∈ ds, |r.variance| ≤ threshold ∧ a = mkAdjustment now r)
    ∧ (∀ r ∈ ds, r.variance = 11 → r ∉ attemptedAdjustments ds 10)
    ∧ (∀ r ∈ ds, r.variance = 10 → r ∈ attemptedAdjustments ds 10) := by
  have hmem : ∀ (th : ℚ) (r : MergedRecord),
      r ∈ attemptedAdjustments ds th ↔ r ∈ ds ∧ |r.variance| ≤ th := by
    intro th r
    simp [attemptedAdjustments, List.mem_filter]
  refine ⟨hmem threshold, ?_, ?_, ?_⟩
  · intro ok now a ha
    obtain ⟨r, hr, _, rfl⟩ := mem_adjustLoop ha
    obtain ⟨hrds, hrv⟩ := (hmem threshold r).mp hr
    exact ⟨r, hrds, hrv, rfl⟩
  · intro r hr h11 hmem10
    have := ((hmem 10 r).mp hmem10).2
    rw [h11] at this
    norm_num at this
  · intro r hr h10
    exact (hmem 10 r).mpr ⟨hr, by rw [h10]; norm_num⟩

/-- C7 witness: with threshold 10, the concrete row of variance 11 is not
attempted and the concrete row of variance 10 is attempted. -/
theorem auto_adjust_respects_threshold_witness :
    mkMerged 0 "A" "L" (some 11) (some 0)
        ∉ attemptedAdjustments
          [mkMerged 0 "A" "L" (some 11) (some 0), mkMerged 0 "B" "L" (some 10) (some 0)] 10
      ∧ mkMerged 0 "B" "L" (some 10) (some 0)
        ∈ attemptedAdjustments
          [mkMerged 0 "A" "L" (some 11) (some 0), mkMerged 0 "B" "L" (some 10) (some 0)] 10 :=
  ⟨(auto_adjust_respects_threshold
      [mkMerged 0 "A" "L" (some 11) (some 0), mkMerged 0 "B" "L" (some 10) (some 0)]
      10).2.2.1 (mkMerged 0 "A" "L" (some 11) (some 0)) (by simp) (by norm_num),
   (auto_adjust_respects_threshold
      [mkMerged 0 "A" "L" (some 11) (some 0), mkMerged 0 "B" "L" (some 10) (some 0)]
      10).2.2.2 (mkMerged 0 "B" "L" (some 10) (some 0)) (by simp) (by norm_num)⟩

/-- C8: the batch is best-effort: the returned list is exactly the
successful attempts in order (filter of the attempted rows by success,
mapped to adjustment dicts), a failing row in the middle of a batch is
simply skipped without aborting the rest, and every returned adjustment
records the ERP quantity as old, the WMS quantity as new, and the
timestamp. -/
theorem auto_adjust_best_effort (ds : List MergedRecord) (threshold : ℚ)
    (ok : MergedRecord → Bool) (now : Nat) :
    auto_adjust_discrepancies ds threshold ok now
        = ((attemptedAdjustments ds threshold).filter ok).map (mkAdjustment now)
    ∧ (∀ (xs ys : List MergedRecord) (r : MergedRecord), ok r = false
        → adjustLoop ok now (xs ++ r :: ys) = adjustLoop ok now (xs ++ ys))
    ∧ (∀ a ∈ auto_adjust_discrepancies ds threshold ok now,
        ∃ r ∈ attemptedAdjustments ds threshold, ok r = true
          ∧ a.old_quantity = r.quantity_erp ∧ a.new_quantity = r.quantity_wms
          ∧ a.adjusted_at = now) := by
  refine ⟨adjustLoop_eq_filter_map ok now _, ?_, ?_⟩
  · intro xs ys r hfail
    rw [adjustLoop_eq_filter_map, adjustLoop_eq_filter_map]
    simp [List.filter_append, List.filter_cons, hfail]
  · intro a ha
    obtain ⟨r, hr, hok, rfl⟩ := mem_adjustLoop ha
    exact ⟨r, hr, hok, rfl, rfl, rfl⟩

/-- C8 witness: a batch whose only row fails yields the same (empty) result
as the batch without that row. -/
theorem auto_adjust_best_effort_witness :
    adjustLoop (fun _ => false) 0 ([] ++ mkMerged 0 "A" "L" (some 1) (some 1) :: [])
      = adjustLoop (fun _ => false) 0 ([] ++ []) :=
  (auto_adjust_best_effort [] 0 (fun _ => false) 0).2.1 [] []
    (mkMerged 0 "A" "L" (some 1) (some 1)) rfl

/-- Unfolding of the key predicate on a source row. -/
lemma keyMatches_iff {s l : String} {r : InvRecord} :
    keyMatches s l r = true ↔ r.sku = s ∧ r.location = l := by
  simp [keyMatches]

/-- In a normalized snapshot, at most one row matches a given key. -/
lemma countP_keyMatches_le_one {recs : List InvRecord} (h : nodupKeys recs)
    (s l : String) : recs.countP (keyMatches s l) ≤ 1 := by
  induction recs with
  | nil => simp
  | cons r t ih =>
    rw [nodupKeys, List.map_cons, List.nodup_cons] at h
    obtain ⟨hnot, ht⟩ := h
    by_cases hk : keyMatches s l r
    · have hzero : t.countP (keyMatches s l) = 0 := by
        rw [List.countP_eq_zero]
        intro x hx hkx
        apply hnot
        rw [List.mem_map]
        refine ⟨x, hx, ?_⟩
        obtain ⟨hx1, hx2⟩ := keyMatches_iff.mp hkx
        obtain ⟨hr1, hr2⟩ := keyMatches_iff.mp hk
        rw [hx1, hx2, hr1, hr2]
      rw [List.countP_cons, hzero]
      simp [hk]
    · rw [List.countP_cons]
      simp only [hk, if_false]
      simpa using ih ht

/-- In a normalized snapshot, a key that occurs with some further condition
occurs in exactly one row under that condition. -/
lemma countP_keyMatches_and_eq_one {recs : List InvRecord} (h : nodupKeys recs)
    {s l : String} {p : InvRecord → Bool}
    (hex : ∃ r ∈ recs, keyMatches s l r = true ∧ p r = true) :
    recs.countP (fun r => keyMatches s l r && p r) = 1 := by
  have hle : recs.countP (fun r => keyMatches s l r && p r)
      ≤ recs.countP (keyMatches s l) :=
    List.countP_mono_left fun x _ hx => (Bool.and_eq_true_iff.mp hx).1
  have hone := countP_keyMatches_le_one h s l
  obtain ⟨r, hr, hkr, hpr⟩ := hex
  have hpos : 0 < recs.countP (fun r => keyMatches s l r && p r) :=
    List.countP_pos_iff.mpr ⟨r, hr, Bool.and_eq_true_iff.mpr ⟨hkr, hpr⟩⟩
  omega

/-- C9: the negative-stock scan contains, for every key, exactly the
negative rows of each source (counts add across sources, with WMS-tagged
and ERP-tagged entries counted per source); every emitted item is a negative
row of its tagged source; and a key negative in both normalized snapshots
yields exactly two entries, one per source. -/
theorem scan_negative_both_sources (wms erp : List InvRecord) :
    (∀ s l : String,
      (scan_for_negative_stock wms erp).countP (nkeyMatches s l)
        = wms.countP (fun r => keyMatches s l r && decide (r.quantity < 0))
          + erp.countP (fun r => keyMatches s l r && decide (r.quantity < 0)))
    ∧ (∀ s l : String,
      (scan_for_negative_stock wms erp).countP
          (fun i => nkeyMatches s l i && decide (i.source = Source.WMS))
        = wms.countP (fun r => keyMatches s l r && decide (r.quantity < 0))
      ∧ (scan_for_negative_stock wms erp).countP
          (fun i => nkeyMatches s l i && decide (i.source = Source.ERP))
        = erp.countP (fun r => keyMatches s l r && decide (r.quantity < 0)))
    ∧ (∀ i ∈ scan_for_negative_stock wms erp,
        i.quantity < 0
        ∧ ((i.source = Source.WMS ∧ InvRecord.mk i.sku i.location i.quantity ∈ wms)
          ∨ (i.source = Source.ERP ∧ InvRecord.mk i.sku i.location i.quantity ∈ erp)))
    ∧ (nodupKeys wms → nodupKeys erp → ∀ s l : String,
        (∃ r ∈ wms, keyMatches s l r = true ∧ r.quantity < 0)
        → (∃ r ∈ erp, keyMatches s l r = true ∧ r.quantity < 0)
        → (scan_for_negative_stock wms erp).countP (nkeyMatches s l) = 2
          ∧ (scan_for_negative_stock wms erp).countP
              (fun i => nkeyMatches s l i && decide (i.source = Source.WMS)) = 1
          ∧ (scan_for_negative_stock wms erp).countP
              (fun i => nkeyMatches s l i && decide (i.source = Source.ERP)) = 1) := by
  have hplain : ∀ s l : String,
      (scan_for_negative_stock wms erp).countP (nkeyMatches s l)
        = wms.countP (fun r => keyMatches s l r && decide (r.quantity < 0))
          + erp.countP (fun r => keyMatches s l r && decide (r.quantity < 0)) := by
    intro s l
    rw [scan_for_negative_stock, List.countP_append, List.countP_map, List.countP_map,
      List.countP_filter, List.countP_filter]
    rfl
  have hwside : ∀ s l : String,
      (scan_for_negative_stock wms erp).countP
          (fun i => nkeyMatches s l i && decide (i.source = Source.WMS))
        = wms.countP (fun r => keyMatches s l r && decide (r.quantity < 0)) := by
    intro s l
    rw [scan_for_negative_stock, List.countP_append, List.countP_map, List.countP_map,
      List.countP_filter, List.countP_filter]
    have hzero : erp.countP (fun x =>
        ((fun i => nkeyMatches s l i && decide (i.source = Source.WMS)) ∘ fun r =>
          NegItem.mk r.sku r.location r.quantity Source.ERP) x
          && decide (x.quantity < 0)) = 0 := by
      rw [List.countP_eq_zero]
      intro x _ hx
      simp [Function.comp, nkeyMatches] at hx
    rw [hzero, Nat.add_zero]
    exact List.countP_congr fun x _ => by
      simp [Function.comp, nkeyMatches, keyMatches]
  have heside : ∀ s l : String,
      (scan_for_negative_stock wms erp).countP
          (fun i => nkeyMatches s l i && decide (i.source = Source.ERP))
        = erp.countP (fun r => keyMatches s l r && decide (r.quantity < 0)) := by
    intro s l
    rw [scan_for_negative_stock, List.countP_append, List.countP_map, List.countP_map,
      List.countP_filter, List.countP_filter]
    have hzero : wms.countP (fun x =>
        ((fun i => nkeyMatches s l i && decide (i.source = Source.ERP)) ∘ fun r =>
          NegItem.mk r.sku r.location r.quantity Source.WMS) x
          && decide (x.quantity < 0)) = 0 := by
      rw [List.countP_eq_zero]
      intro x _ hx
      simp [Function.comp, nkeyMatches] at hx
    rw [hzero, Nat.zero_add]
    exact List.countP_congr fun x _ => by
      simp [Function.comp, nkeyMatches, keyMatches]
  refine ⟨hplain, fun s l => ⟨hwside s l, heside s l⟩, ?_, ?_⟩
  · intro i hi
    rcases List.mem_append.mp hi with hA | hB
    · obtain ⟨r, hr, rfl⟩ := List.mem_map.mp hA
      obtain ⟨hrm, hneg⟩ := List.mem_filter.mp hr
      exact ⟨of_decide_eq_true hneg, Or.inl ⟨rfl, hrm⟩⟩
    · obtain ⟨r, hr, rfl⟩ := List.mem_map.mp hB
      obtain ⟨hrm, hneg⟩ := List.mem_filter.mp hr
      exact ⟨of_decide_eq_true hneg, Or.inr ⟨rfl, hrm⟩⟩
  · intro hw he s l hexw hexe
    have hw1 : wms.countP (fun r => keyMatches s l r && decide (r.quantity < 0)) = 1 := by
      obtain ⟨r, hr, hkr, hneg⟩ := hexw
      exact countP_keyMatches_and_eq_one hw ⟨r, hr, hkr, decide_eq_true hneg⟩
    have he1 : erp.countP (fun r => keyMatches s l r && decide (r.quantity < 0)) = 1 := by
      obtain ⟨r, hr, hkr, hneg⟩ := hexe
      exact countP_keyMatches_and_eq_one he ⟨r, hr, hkr, decide_eq_true hneg⟩
    refine ⟨?_, ?_, ?_⟩
    · rw [hplain s l, hw1, he1]
    · rw [hwside s l, hw1]
    · rw [heside s l, he1]

/-- C9 witness: a key negative in both sources yields exactly two scan
entries, with exactly one of them tagged WMS. -/
theorem scan_negative_both_sources_witness :
    (scan_for_negative_stock [InvRecord.mk "A" "L" (-5)]
        [InvRecord.mk "A" "L" (-3)]).countP (nkeyMatches "A" "L") = 2
      ∧ (scan_for_negative_stock [InvRecord.mk "A" "L" (-5)]
          [InvRecord.mk "A" "L" (-3)]).countP
          (fun i => nkeyMatches "A" "L" i && decide (i.source = Source.WMS)) = 1 :=
  have h := (scan_negative_both_sources [InvRecord.mk "A" "L" (-5)]
      [InvRecord.mk "A" "L" (-3)]).2.2.2
    (by unfold nodupKeys; decide) (by unfold nodupKeys; decide) "A" "L"
    ⟨InvRecord.mk "A" "L" (-5), List.mem_singleton.mpr rfl, rfl, by norm_num⟩
    ⟨InvRecord.mk "A" "L" (-3), List.mem_singleton.mpr rfl, rfl, by norm_num⟩
  ⟨h.1, h.2.1⟩

/-- Unfolding of the key-presence test. -/
lemma hasKey_eq_true_iff {recs : List InvRecord} {s l : String} :
    hasKey recs s l = true ↔ ∃ r ∈ recs, keyMatches s l r = true := by
  simp [hasKey, List.any_eq_true]

/-- A present key is counted exactly once in a normalized snapshot. -/
lemma countP_keyMatches_eq_one {recs : List InvRecord} (h : nodupKeys recs)
    {s l : String} (hex : hasKey recs s l = true) :
    recs.countP (keyMatches s l) = 1 := by
  obtain ⟨r, hr, hkr⟩ := hasKey_eq_true_iff.mp hex
  have hle := countP_keyMatches_le_one h s l
  have hpos : 0 < recs.countP (keyMatches s l) :=
    List.countP_pos_iff.mpr ⟨r, hr, hkr⟩
  omega

/-- An absent key is counted zero times. -/
lemma countP_keyMatches_eq_zero {recs : List InvRecord} {s l : String}
    (hab : hasKey recs s l = false) :
    recs.countP (keyMatches s l) = 0 := by
  rw [List.countP_eq_zero]
  intro x hx hpx
  have : hasKey recs s l = true := hasKey_eq_true_iff.mpr ⟨x, hx, hpx⟩
  rw [hab] at this
  cases this

/-- C3: on normalized snapshots the merge is a full outer join on
(sku, location): every key present in either source yields exactly one
merged row and absent keys yield none; and every merged row has
variance = quantity_wms - quantity_erp with a missing side's quantity
defaulted to 0. -/
theorem outer_join_one_row_per_key (tol : ℚ) (wms erp : List InvRecord)
    (hw : nodupKeys wms) (he : nodupKeys erp) :
    (∀ s l : String,
      (mergeInventories tol wms erp).countP (mkeyMatches s l)
        = if hasKey wms s l || hasKey erp s l then 1 else 0)
    ∧ (∀ m ∈ mergeInventories tol wms erp,
        m.variance = m.quantity_wms - m.quantity_erp
        ∧ (hasKey wms m.sku m.location = false → m.quantity_wms = 0)
        ∧ (hasKey erp m.sku m.location = false → m.quantity_erp = 0)) := by
  constructor
  · intro s l
    rw [mergeInventories, List.countP_append, List.countP_map, List.countP_map,
      List.countP_filter]
    have hA : wms.countP (mkeyMatches s l ∘ fun w =>
        mkMerged tol w.sku w.location (some w.quantity) (lookupQty erp w.sku w.location))
        = wms.countP (keyMatches s l) :=
      List.countP_congr fun x _ => by simp [Function.comp, mkeyMatches, keyMatches]
    rw [hA]
    cases hkw : hasKey wms s l with
    | true =>
      have h0 : erp.countP (fun e =>
          (mkeyMatches s l ∘ fun e =>
            mkMerged tol e.sku e.location none (some e.quantity)) e
            && !hasKey wms e.sku e.location) = 0 := by
        rw [List.countP_eq_zero]
        intro x _ hpx
        obtain ⟨hk, hnc⟩ := Bool.and_eq_true_iff.mp hpx
        obtain ⟨hx1, hx2⟩ : x.sku = s ∧ x.location = l := by
          simpa [Function.comp, mkeyMatches] using hk
        rw [Bool.not_eq_true'] at hnc
        rw [hx1, hx2, hkw] at hnc
        cases hnc
      rw [h0, countP_keyMatches_eq_one hw hkw]
      simp
    | false =>
      have h2 : erp.countP (fun e =>
          (mkeyMatches s l ∘ fun e =>
            mkMerged tol e.sku e.location none (some e.quantity)) e
            && !hasKey wms e.sku e.location)
          = erp.countP (keyMatches s l) := by
        apply List.countP_congr
        intro x _
        constructor
        · intro hpx
          have hk := (Bool.and_eq_true_iff.mp hpx).1
          simpa [Function.comp, mkeyMatches, keyMatches] using hk
        · intro hpx
          refine Bool.and_eq_true_iff.mpr ⟨?_, ?_⟩
          · simpa [Function.comp, mkeyMatches, keyMatches] using hpx
          · obtain ⟨hx1, hx2⟩ := keyMatches_iff.mp hpx
            rw [Bool.not_eq_true', hx1, hx2]
            exact hkw
      rw [h2, countP_keyMatches_eq_zero hkw]
      cases hke : hasKey erp s l with
      | true =>
        rw [countP_keyMatches_eq_one he hke]
        simp
      | false =>
        rw [countP_keyMatches_eq_zero hke]
        simp
  · intro m hm
    rcases List.mem_append.mp hm with hA | hB
    · obtain ⟨w, hwmem, rfl⟩ := List.mem_map.mp hA
      refine ⟨by simp, ?_, ?_⟩
      · intro hkw
        rw [mkMerged_sku, mkMerged_location] at hkw
        have htrue : hasKey wms w.sku w.location = true :=
          hasKey_eq_true_iff.mpr ⟨w, hwmem, by simp [keyMatches]⟩
        rw [htrue] at hkw
        cases hkw
      · intro hke
        rw [mkMerged_sku, mkMerged_location] at hke
        have hfind : erp.find? (keyMatches w.sku w.location) = none := by
          rw [List.find?_eq_none]
          intro x hx hpx
          have : hasKey erp w.sku w.location = true :=
            hasKey_eq_true_iff.mpr ⟨x, hx, hpx⟩
          rw [hke] at this
          cases this
        rw [mkMerged_quantity_erp]
        simp [lookupQty, hfind]
    · obtain ⟨e, hemem, rfl⟩ := List.mem_map.mp hB
      obtain ⟨hemem', _⟩ := List.mem_filter.mp hemem
      refine ⟨by simp, ?_, ?_⟩
      · intro _
        rw [mkMerged_quantity_wms]
        rfl
      · intro hke
        rw [mkMerged_sku, mkMerged_location] at hke
        have : hasKey erp e.sku e.location = true :=
          hasKey_eq_true_iff.mpr ⟨e, hemem', by simp [keyMatches]⟩
        rw [hke] at this
        cases this

/-- C3 witness: with one WMS-only key and one ERP-only key, the key present
only in WMS yields exactly one merged row. -/
theorem outer_join_one_row_per_key_witness :
    (mergeInventories 0 [InvRecord.mk "A" "L" 3] [InvRecord.mk "B" "M" 4]).countP
        (mkeyMatches "A" "L")
      = if hasKey [InvRecord.mk "A" "L" 3] "A" "L"
          || hasKey [InvRecord.mk "B" "M" 4] "A" "L" then 1 else 0 :=
  (outer_join_one_row_per_key 0 [InvRecord.mk "A" "L" 3] [InvRecord.mk "B" "M" 4]
    (by unfold nodupKeys; decide) (by unfold nodupKeys; decide)).1 "A" "L"
